import Mathlib

/-!
# gin-prometheus: a shallow embedding of the middleware, the metric registry
and the push reporter

Go strings are Lean strings and `len` counts bytes.  Go `int` is the 64-bit
two's-complement integer.  Code that can panic returns `Except String`, the
error carrying the panic message.  Third-party collaborators (the Prometheus
client registry, gin routers, `net/http`, `os.Hostname`, the clock) are
represented by the part of their state and behaviour the repository relies on.
-/

namespace GinPrometheus

/-! # The embedding -/

/-! ## Go primitives -/

/-- Go `len(s)` of a string: the number of bytes of its UTF-8 encoding. -/
def len (s : String) : Int := (s.utf8ByteSize : Int)

/-- Go `int` on a 64-bit platform: the two's-complement value of an exact integer. -/
def wrapInt (x : Int) : Int :=
  (x + 9223372036854775808) % 18446744073709551616 - 9223372036854775808

/-- Go `s += x` on values of type `int`. -/
def addInt (s x : Int) : Int := wrapInt (s + x)

/-- Whether an exact integer is representable as a Go `int`. -/
def inIntRange (x : Int) : Prop :=
  -9223372036854775808 ≤ x ∧ x < 9223372036854775808

/-! ## net/http requests -/

/-- The two renderings of `*url.URL` the package reads: `String()` and `EscapedPath()`. -/
structure Url where
  string : String
  escapedPath : String
deriving DecidableEq, Repr

/-- The fields of `http.Request` read by the package; `URL` may be nil. -/
structure Request where
  URL : Option Url
  Method : String
  Proto : String
  Header : List (String × List String)
  Host : String
  ContentLength : Int
deriving DecidableEq, Repr

/-- The loop `for name, values := range r.Header` of computeApproximateRequestSize. -/
def headerLoop (s : Int) (h : List (String × List String)) : Int :=
  h.foldl (fun s nv => nv.2.foldl (fun s value => addInt s (len value)) (addInt s (len nv.1))) s

/-- Source: prometheus.go, computeApproximateRequestSize. -/
def computeApproximateRequestSize (r : Request) : Int :=
  let s : Int := match r.URL with
    | some u => len u.string
    | none => 0
  let s := addInt s (len r.Method)
  let s := addInt s (len r.Proto)
  let s := headerLoop s r.Header
  let s := addInt s (len r.Host)
  if r.ContentLength ≠ -1 then addInt s r.ContentLength else s

/-- The exact byte total of the header names and values. -/
def headerBytes (h : List (String × List String)) : Int :=
  (h.map (fun nv => len nv.1 + (nv.2.map len).sum)).sum

/-- The length of the URL string, 0 when the URL is absent. -/
def urlLen (r : Request) : Int :=
  match r.URL with
  | some u => len u.string
  | none => 0

/-- The size as the specification words it: the content length counts only
when it is non-negative. -/
def specRequestSize (r : Request) : Int :=
  urlLen r + len r.Method + len r.Proto + headerBytes r.Header + len r.Host
    + (if 0 ≤ r.ContentLength then r.ContentLength else 0)

/-- The exact sum the code accumulates: the content length counts unless it is -1. -/
def exactRequestSize (r : Request) : Int :=
  urlLen r + len r.Method + len r.Proto + headerBytes r.Header + len r.Host
    + (if r.ContentLength ≠ -1 then r.ContentLength else 0)

/-- The GET request of the specification example, with a chosen content length. -/
def exampleGet (path h : String) (contentLength : Int) : Request :=
  { URL := some { string := path, escapedPath := path }
    Method := "GET"
    Proto := "HTTP/1.1"
    Header := [("X", ["Y"])]
    Host := h
    ContentLength := contentLength }

/-! ## Prometheus client: collectors, the default registry -/

/-- The panic raised by dereferencing nil. -/
def nilDeref : String := "invalid memory address or nil pointer dereference"

/-- The concrete collector types NewMetric can construct. -/
inductive Kind
  | counterVec | counter | gaugeVec | gauge
  | histogramVec | histogram | summaryVec | summary
deriving DecidableEq, Repr

/-- A live collector object.  `series` holds, per label-value tuple, how often
the series was incremented; `observations` holds the observed values in
order (byte counts as they are, durations in nanoseconds: the conversion to
float64 is outside the embedding). -/
structure Collector where
  kind : Kind
  fqName : String
  help : String
  labels : List String
  series : List (List String × Nat)
  observations : List Int
deriving DecidableEq, Repr

/-- Collectors are referred to by their position in the heap of allocated objects. -/
abbrev CollectorId := Nat

/-- A metric definition (metrics.go, type Metric) without its mutable
MetricCollector field, which lives in `World.metricCollector`. -/
structure Metric where
  ID : String
  Name : String
  Description : String
  Typ : String
  Args : List String
deriving DecidableEq, Repr

/-- Source: metrics.go, var uptime. -/
def uptime : Metric :=
  { ID := "uptime", Name := "uptime", Description := "HTTP service uptime.",
    Typ := "counter_vec", Args := [] }

/-- Source: metrics.go, var reqCnt. -/
def reqCnt : Metric :=
  { ID := "reqCnt", Name := "requests_total",
    Description := "How many HTTP requests processed, partitioned by status code and HTTP method.",
    Typ := "counter_vec", Args := ["code", "method", "host", "url"] }

/-- Source: metrics.go, var reqDur. -/
def reqDur : Metric :=
  { ID := "reqDur", Name := "request_duration_seconds",
    Description := "The HTTP request latencies in seconds.", Typ := "summary", Args := [] }

/-- Source: metrics.go, var resSz. -/
def resSz : Metric :=
  { ID := "resSz", Name := "response_size_bytes",
    Description := "The HTTP response sizes in bytes.", Typ := "summary", Args := [] }

/-- Source: metrics.go, var reqSz. -/
def reqSz : Metric :=
  { ID := "reqSz", Name := "request_size_bytes",
    Description := "The HTTP request sizes in bytes.", Typ := "summary", Args := [] }

/-- A value of type `*Metric`: one of the five package-level definitions, or a
definition allocated by the caller. -/
inductive MetricPtr
  | uptime | reqCnt | reqDur | resSz | reqSz
  | other (addr : Nat) (m : Metric)
deriving DecidableEq, Repr

/-- The definition a `*Metric` points to. -/
def MetricPtr.deref : MetricPtr → Metric
  | .uptime => GinPrometheus.uptime
  | .reqCnt => GinPrometheus.reqCnt
  | .reqDur => GinPrometheus.reqDur
  | .resSz => GinPrometheus.resSz
  | .reqSz => GinPrometheus.reqSz
  | .other _ m => m

/-- Source: metrics.go, var standardMetrics. -/
def standardMetrics : List MetricPtr :=
  [.uptime, .reqCnt, .reqDur, .resSz, .reqSz]

/-- The client library function BuildFQName: the non-empty parts joined by underscores. -/
def BuildFQName (ns subsystem name : String) : String :=
  if name = "" then ""
  else if ns ≠ "" ∧ subsystem ≠ "" then ns ++ "_" ++ subsystem ++ "_" ++ name
  else if ns ≠ "" then ns ++ "_" ++ name
  else if subsystem ≠ "" then subsystem ++ "_" ++ name
  else name

/-- A freshly constructed collector of the given kind: no series, no observations. -/
def newCollector (k : Kind) (subsystem name help : String) (labels : List String) : Collector :=
  { kind := k, fqName := BuildFQName "" subsystem name, help := help, labels := labels,
    series := [], observations := [] }

/-- Source: metrics.go, NewMetric.  The result is nil (none) when the Type
string is none of the eight known ones; the scalar kinds take no labels. -/
def NewMetric (m : Metric) (subsystem : String) : Option Collector :=
  if m.Typ = "counter_vec" then
    some (newCollector .counterVec subsystem m.Name m.Description m.Args)
  else if m.Typ = "counter" then
    some (newCollector .counter subsystem m.Name m.Description [])
  else if m.Typ = "gauge_vec" then
    some (newCollector .gaugeVec subsystem m.Name m.Description m.Args)
  else if m.Typ = "gauge" then
    some (newCollector .gauge subsystem m.Name m.Description [])
  else if m.Typ = "histogram_vec" then
    some (newCollector .histogramVec subsystem m.Name m.Description m.Args)
  else if m.Typ = "histogram" then
    some (newCollector .histogram subsystem m.Name m.Description [])
  else if m.Typ = "summary_vec" then
    some (newCollector .summaryVec subsystem m.Name m.Description m.Args)
  else if m.Typ = "summary" then
    some (newCollector .summary subsystem m.Name m.Description [])
  else none

/-- The process-wide state the package works on. -/
structure World where
  /-- All collector objects allocated so far. -/
  heap : List Collector
  /-- The default registry of the client library: fully-qualified name and
  the collector registered under it, in registration order. -/
  registry : List (String × CollectorId)
  /-- The lines written by `log.Print`. -/
  log : List String
  /-- The MetricCollector field of every metric definition. -/
  metricCollector : MetricPtr → Option CollectorId

/-- Whether a name is registered in the default registry. -/
def World.taken (w : World) (name : String) : Bool :=
  (w.registry.lookup name).isSome

/-- The collector the scrape endpoint reads for a name. -/
def World.registered (w : World) (name : String) : Option CollectorId :=
  w.registry.lookup name

/-- Allocation of the object NewMetric returns; nil allocates nothing. -/
def alloc (c : Option Collector) (w : World) : Option CollectorId × World :=
  match c with
  | none => (none, w)
  | some c => (some w.heap.length, { w with heap := w.heap ++ [c] })

/-- The error text of the client library for a second registration of a name. -/
def duplicateError : String := "duplicate metrics collector registration attempted"

/-- External collaborator `prometheus.Register` on the default registry, as far
as the package relies on it: a nil collector panics; a collector whose
fully-qualified name is already registered is refused with an error and the
registry is left as it was; otherwise the collector is added.  (All names are
taken to be valid metric names.) -/
def Register (w : World) (metric : Option CollectorId) : Except String (World × Option String) :=
  match metric with
  | none => .error nilDeref
  | some id =>
    match w.heap[id]? with
    | none => .error nilDeref
    | some c =>
      if w.taken c.fqName then .ok (w, some duplicateError)
      else .ok ({ w with registry := w.registry ++ [(c.fqName, id)] }, none)

/-- Source: prometheus.go, errorLog. -/
def errorLog (err : String) (w : World) : World :=
  { w with log := w.log ++ ["[PROM]" ++ err] }

/-! ## gin and the Prometheus struct -/

/-- A matched route parameter (gin.Param). -/
structure Param where
  Key : String
  Value : String
deriving DecidableEq, Repr

/-- The parts of `gin.Context` the package reads: the request, the matched
parameters, and the status and size reported by the response writer. -/
structure Context where
  Request : Request
  Params : List Param
  status : Int
  size : Int
deriving DecidableEq, Repr

/-- Source: pushgateway.go, type PushGateway (the interval in nanoseconds). -/
structure PushGateway where
  PushInterval : Int
  URL : String
  MetricsURL : String
  Job : String
deriving DecidableEq, Repr

/-- Source: prometheus.go, type Prometheus.  Handles and the router are
pointers (none is nil); FormatCounterURL is a function value that may be nil
and may panic. -/
structure Prometheus where
  uptime : Option CollectorId
  reqCnt : Option CollectorId
  reqDur : Option CollectorId
  reqSz : Option CollectorId
  resSz : Option CollectorId
  router : Option Nat
  listenAddress : String
  PushGateway : PushGateway
  MetricsList : List MetricPtr
  FormatCounterURL : Option (Context → Except String String)

/-- The type assertion `metric.(*prometheus.CounterVec)`. -/
def assertCounterVec (w : World) (metric : Option CollectorId) : Except String CollectorId :=
  match metric with
  | none => .error "interface conversion: interface is nil"
  | some id =>
    match w.heap[id]? with
    | some c => if c.kind = .counterVec then .ok id
                else .error "interface conversion: not *prometheus.CounterVec"
    | none => .error nilDeref

/-- The type assertion `metric.(prometheus.Summary)`: it succeeds for every
type with an Observe method, which summaries and histograms have. -/
def assertSummary (w : World) (metric : Option CollectorId) : Except String CollectorId :=
  match metric with
  | none => .error "interface conversion: interface is nil"
  | some id =>
    match w.heap[id]? with
    | some c => if c.kind = .summary ∨ c.kind = .histogram then .ok id
                else .error "interface conversion: missing method Observe"
    | none => .error nilDeref

/-- One iteration of the loop of registerMetrics. -/
def registerStep (subsystem : String) (acc : Prometheus × World) (metricDef : MetricPtr) :
    Except String (Prometheus × World) :=
  let p := acc.1
  let w := acc.2
  let (metric, w) := alloc (NewMetric metricDef.deref subsystem) w
  match Register w metric with
  | .error e => .error e
  | .ok (w, err) =>
    let w := match err with
      | some e => errorLog (metricDef.deref.Name ++ " couldn't be registered in Prometheus: " ++ e) w
      | none => w
    let assigned : Except String Prometheus :=
      match metricDef with
      | .uptime => (assertCounterVec w metric).map (fun h => { p with uptime := some h })
      | .reqCnt => (assertCounterVec w metric).map (fun h => { p with reqCnt := some h })
      | .reqDur => (assertSummary w metric).map (fun h => { p with reqDur := some h })
      | .resSz => (assertSummary w metric).map (fun h => { p with resSz := some h })
      | .reqSz => (assertSummary w metric).map (fun h => { p with reqSz := some h })
      | .other _ _ => .ok p
    match assigned with
    | .error e => .error e
    | .ok p =>
      .ok (p, { w with metricCollector := fun q => if q = metricDef then metric else w.metricCollector q })

/-- The loop of registerMetrics over a list of definitions. -/
def registerLoop (subsystem : String) :
    List MetricPtr → Prometheus × World → Except String (Prometheus × World)
  | [], acc => .ok acc
  | d :: ds, acc =>
    match registerStep subsystem acc d with
    | .error e => .error e
    | .ok acc => registerLoop subsystem ds acc

/-- Source: metrics.go, (*Prometheus).registerMetrics. -/
def registerMetrics (subsystem : String) (p : Prometheus) (w : World) :
    Except String (Prometheus × World) :=
  registerLoop subsystem p.MetricsList (p, w)

/-! ## Counting and observing -/

/-- The increment of one series of a counter vector; a series is created on
its first use. -/
def incSeries (key : List String) : List (List String × Nat) → List (List String × Nat)
  | [] => [(key, 1)]
  | (k, v) :: rest => if k = key then (k, v + 1) :: rest else (k, v) :: incSeries key rest

/-- The value of one series; a series never touched reads 0. -/
def seriesValue (key : List String) (series : List (List String × Nat)) : Nat :=
  (series.lookup key).getD 0

/-- The sum over all series of a vector. -/
def seriesTotal (series : List (List String × Nat)) : Nat :=
  (series.map (fun kv => kv.2)).sum

/-- The call `vec.WithLabelValues(lvs...).Inc()` on a `*CounterVec` handle:
a nil handle panics, and so does a number of values different from the number
of labels. -/
def incWithLabelValues (h : Option CollectorId) (lvs : List String) (w : World) :
    Except String World :=
  match h with
  | none => .error nilDeref
  | some id =>
    match w.heap[id]? with
    | none => .error nilDeref
    | some c =>
      if c.kind = .counterVec ∧ c.labels.length = lvs.length then
        .ok { w with heap := w.heap.set id { c with series := incSeries lvs c.series } }
      else .error "inconsistent label cardinality"

/-- The call `s.Observe(v)` on a Summary handle; a nil handle panics. -/
def observe (h : Option CollectorId) (v : Int) (w : World) : Except String World :=
  match h with
  | none => .error nilDeref
  | some id =>
    match w.heap[id]? with
    | none => .error nilDeref
    | some c =>
      if c.kind = .summary ∨ c.kind = .histogram then
        .ok { w with heap := w.heap.set id { c with observations := c.observations ++ [v] } }
      else .error nilDeref

/-! ## The request interceptor -/

/-- The position of the first occurrence of `old` in `s` (strings.Index). -/
def indexOf (old : List Char) : List Char → Option Nat
  | [] => if old = [] then some 0 else none
  | c :: t =>
    if old <+: c :: t then some 0
    else (indexOf old t).map (fun j => j + 1)

/-- The call `strings.Replace(s, old, new, 1)`: the first occurrence of `old`
is replaced; an empty `old` matches at the start; nothing changes when `old`
does not occur or equals `new`. -/
def replaceOnce (s old new : String) : String :=
  if old = new then s
  else match indexOf old.data s.data with
    | none => s
    | some j => String.mk (s.data.take j ++ new.data ++ s.data.drop (j + old.data.length))

/-- Source: prometheus.go, the FormatCounterURL closure installed by NewPrometheus. -/
def defaultFormatCounterURL (c : Context) : Except String String :=
  match c.Request.URL with
  | none => .error nilDeref
  | some u =>
    .ok (c.Params.foldl (fun url p => replaceOnce url p.Value (":" ++ p.Key)) u.escapedPath)

/-- The state a request handler runs in: the process-wide world, the gin
context of the request, the monotonic clock in nanoseconds, and how often
`c.Next()` has been called. -/
structure State where
  world : World
  ctx : Context
  now : Int
  nextCalls : Nat

/-- The rest of the handler chain: it may change anything and may panic. -/
abbrev Downstream := State → Except String State

/-- The call `c.Next()`: it runs the rest of the chain once. -/
def cNext (next : Downstream) (s : State) : Except String State :=
  match next s with
  | .error e => .error e
  | .ok s1 => .ok { s1 with nextCalls := s.nextCalls + 1 }

/-- Go `strconv.Itoa`. -/
def Itoa (i : Int) : String := toString i

/-- Source: prometheus.go, the closure returned by (*Prometheus).handlerFunc. -/
def handlerFunc (p : Prometheus) (metricsPath : String) (next : Downstream) (s : State) :
    Except String State :=
  match s.ctx.Request.URL with
  | none => .error nilDeref
  | some u =>
    if u.string = metricsPath then
      cNext next s
    else
      let start := s.now
      let reqSz := computeApproximateRequestSize s.ctx.Request
      match cNext next s with
      | .error e => .error e
      | .ok s =>
        let status := Itoa s.ctx.status
        let elapsed := s.now - start
        let resSz := s.ctx.size
        match observe p.reqDur elapsed s.world with
        | .error e => .error e
        | .ok w =>
          match p.FormatCounterURL with
          | none => .error nilDeref
          | some format =>
            match format s.ctx with
            | .error e => .error e
            | .ok url =>
              match incWithLabelValues p.reqCnt
                  [status, s.ctx.Request.Method, s.ctx.Request.Host, url] w with
              | .error e => .error e
              | .ok w =>
                match observe p.reqSz reqSz w with
                | .error e => .error e
                | .ok w =>
                  match observe p.resSz resSz w with
                  | .error e => .error e
                  | .ok w => .ok { s with world := w }

/-! ## The constructor and its uptime loop -/

/-- How a call stands after the events delivered so far: it has returned a
value, or it is still waiting inside the call. -/
inductive Flow (α : Type)
  | returned (a : α)
  | blocked

/-- A channel as seen by `for range`: the values delivered so far and whether
it has been closed after them. -/
structure Chan where
  delivered : Nat
  closed : Bool

/-- The channel of `time.Tick`: it is never closed. -/
def timeTick (ticks : Nat) : Chan := { delivered := ticks, closed := false }

/-- The body of `for range ch`, run once per delivered value. -/
def rangeBody (body : World → Except String World) : Nat → World → Except String World
  | 0, w => .ok w
  | n + 1, w =>
    match body w with
    | .error e => .error e
    | .ok w => rangeBody body n w

/-- Source: prometheus.go, NewPrometheus, observed after the given number of
ticks: the metrics list is copied from standardMetrics, the closure is
installed, registerMetrics runs, then the loop over the tick channel runs its
body once per tick; the statement `return p` is reached only when the channel
is closed. -/
def NewPrometheus (subsystem : String) (w : World) (ticks : Nat) :
    Except String (Prometheus × World × Flow Prometheus) :=
  let metricsList := standardMetrics.foldl (fun l metric => l ++ [metric]) []
  let p : Prometheus :=
    { uptime := none, reqCnt := none, reqDur := none, reqSz := none, resSz := none,
      router := none, listenAddress := "",
      PushGateway := { PushInterval := 0, URL := "", MetricsURL := "", Job := "" },
      MetricsList := metricsList,
      FormatCounterURL := some defaultFormatCounterURL }
  match registerMetrics subsystem p w with
  | .error e => .error e
  | .ok (p, w) =>
    let ch := timeTick ticks
    match rangeBody (incWithLabelValues p.uptime []) ch.delivered w with
    | .error e => .error e
    | .ok w => .ok (p, w, if ch.closed then Flow.returned p else Flow.blocked)

/-! ## Routers and the scrape route -/

/-- The handlers the package hands to gin. -/
inductive Handler
  | metricsMiddleware (metricsPath : String)
  | basicAuth (accounts : List (String × String))
  | prometheusHandler
  | prometheusHandlerFor (gatherer : Nat)
  | ginLogger
  | ginRecovery
deriving DecidableEq, Repr

/-- A route registered on an engine. -/
structure Route where
  method : String
  path : String
  handlers : List Handler
deriving DecidableEq, Repr

/-- A `gin.Engine`: its middleware, its routes, and the addresses a
background goroutine has called `Run` with. -/
structure Engine where
  middleware : List Handler
  routes : List Route
  serving : List String
deriving DecidableEq, Repr

/-- All engines allocated so far; a `*gin.Engine` is a position in this list
or nil. -/
abbrev Engines := List Engine

/-- The call `e.Use(h)`; a nil engine panics. -/
def engineUse (e : Option Nat) (h : Handler) (g : Engines) : Except String Engines :=
  match e with
  | none => .error nilDeref
  | some id =>
    match g[id]? with
    | none => .error nilDeref
    | some eng => .ok (g.set id { eng with middleware := eng.middleware ++ [h] })

/-- The call `e.GET(path, handlers...)`; a nil engine panics.  (The path
checks of the router itself are outside the embedding.) -/
def engineGET (e : Option Nat) (path : String) (hs : List Handler) (g : Engines) :
    Except String Engines :=
  match e with
  | none => .error nilDeref
  | some id =>
    match g[id]? with
    | none => .error nilDeref
    | some eng =>
      .ok (g.set id { eng with routes := eng.routes ++ [{ method := "GET", path := path, handlers := hs }] })

/-- The goroutine started by runServer: `p.router.Run(address)`. -/
def engineRun (e : Option Nat) (address : String) (g : Engines) : Except String Engines :=
  match e with
  | none => .error nilDeref
  | some id =>
    match g[id]? with
    | none => .error nilDeref
    | some eng => .ok (g.set id { eng with serving := eng.serving ++ [address] })

/-- Source: prometheus.go, (*Prometheus).SetListenAddress; `gin.Default()`
allocates an engine with the logger and recovery middleware. -/
def SetListenAddress (address : String) (p : Prometheus) (g : Engines) : Prometheus × Engines :=
  let p := { p with listenAddress := address }
  if p.listenAddress ≠ "" then
    ({ p with router := some g.length },
      g ++ [{ middleware := [.ginLogger, .ginRecovery], routes := [], serving := [] }])
  else (p, g)

/-- Source: prometheus.go, (*Prometheus).SetListenAddressWithRouter. -/
def SetListenAddressWithRouter (listenAddress : String) (r : Option Nat) (p : Prometheus) :
    Prometheus :=
  let p := { p with listenAddress := listenAddress }
  if len p.listenAddress > 0 then { p with router := r } else p

/-- Source: prometheus.go, (*Prometheus).runServer. -/
def runServer (p : Prometheus) (g : Engines) : Except String Engines :=
  if p.listenAddress ≠ "" then engineRun p.router p.listenAddress g else .ok g

/-- Source: prometheus.go, (*Prometheus).setMetricsPath. -/
def setMetricsPath (p : Prometheus) (e : Option Nat) (metricsPath : String) (g : Engines) :
    Except String Engines :=
  if p.listenAddress ≠ "" then
    match engineGET p.router metricsPath [.prometheusHandler] g with
    | .error err => .error err
    | .ok g => runServer p g
  else engineGET e metricsPath [.prometheusHandler] g

/-- Source: prometheus.go, (*Prometheus).setMetricsPathWithAuth. -/
def setMetricsPathWithAuth (p : Prometheus) (e : Option Nat) (accounts : List (String × String))
    (metricsPath : String) (g : Engines) : Except String Engines :=
  if p.listenAddress ≠ "" then
    match engineGET p.router metricsPath [.basicAuth accounts, .prometheusHandler] g with
    | .error err => .error err
    | .ok g => runServer p g
  else engineGET e metricsPath [.basicAuth accounts, .prometheusHandler] g

/-- Source: prometheus.go, (*Prometheus).setMetricsPathWithCustomMetrics. -/
def setMetricsPathWithCustomMetrics (p : Prometheus) (_e : Option Nat) (gatherer : Nat)
    (metricsPath : String) (g : Engines) : Except String Engines :=
  engineGET p.router metricsPath [.prometheusHandlerFor gatherer] g

/-- Source: prometheus.go, (*Prometheus).Use. -/
def Use (p : Prometheus) (e : Option Nat) (metricsPath : String) (g : Engines) :
    Except String Engines :=
  match engineUse e (.metricsMiddleware metricsPath) g with
  | .error err => .error err
  | .ok g => setMetricsPath p e metricsPath g

/-- Source: prometheus.go, (*Prometheus).UseWithAuth. -/
def UseWithAuth (p : Prometheus) (e : Option Nat) (accounts : List (String × String))
    (metricsPath : String) (g : Engines) : Except String Engines :=
  match engineUse e (.metricsMiddleware metricsPath) g with
  | .error err => .error err
  | .ok g => setMetricsPathWithAuth p e accounts metricsPath g

/-- Source: prometheus.go, (*Prometheus).UseWithCustomMetrics. -/
def UseWithCustomMetrics (p : Prometheus) (e : Option Nat) (gatherer : Nat)
    (metricsPath : String) (g : Engines) : Except String Engines :=
  setMetricsPathWithCustomMetrics p e gatherer metricsPath g

/-- The routers that carry a GET route for the path. -/
def routersWith (path : String) (g : Engines) : List Nat :=
  (List.range g.length).filter (fun i =>
    match g[i]? with
    | some eng => eng.routes.any (fun r => r.method = "GET" ∧ r.path = path)
    | none => false)

/-- A Prometheus value as the constructor builds it, before registerMetrics. -/
def freshPrometheus : Prometheus :=
  { uptime := none, reqCnt := none, reqDur := none, reqSz := none, resSz := none,
    router := none, listenAddress := "",
    PushGateway := { PushInterval := 0, URL := "", MetricsURL := "", Job := "" },
    MetricsList := standardMetrics,
    FormatCounterURL := some defaultFormatCounterURL }

/-! ## The push reporter -/

/-- An `*http.Response` as getMetrics uses it: what `ioutil.ReadAll` of the
body returns, and the error of closing the body. -/
structure Response where
  body : List UInt8
  readError : Option String
  closeError : Option String
deriving DecidableEq, Repr

/-- A request handed to `client.Do`. -/
structure OutRequest where
  method : String
  url : String
  body : List UInt8
deriving DecidableEq, Repr

/-- The outside world of the push reporter at one tick.  `hostname` is the
result of `os.Hostname()`, whose name is empty when it fails; `httpGet` is
`http.Get`, whose response is nil when the transport fails; `validURL` tells
whether `http.NewRequest` can parse a URL (it returns a nil request when it
cannot); `clientDo` is the error of `client.Do`, if any. -/
structure Env where
  hostname : Except String String
  httpGet : String → Option Response × Option String
  validURL : String → Bool
  clientDo : OutRequest → Option String

/-- The state the push reporter works on: the configuration held by the
Prometheus value, the messages passed to `Logger.Error` (the Logger field is
read by pushgateway.go but not declared in the struct under src; it is taken
to hold a logger), and the requests sent. -/
structure PushState where
  gateway : PushGateway
  logged : List String
  sent : List OutRequest
deriving DecidableEq, Repr

/-- Source: pushgateway.go, (*Prometheus).getURL. -/
def getURL (env : Env) (s : PushState) : String × PushState :=
  let h := match env.hostname with
    | .ok name => name
    | .error _ => ""
  let s := if s.gateway.Job = "" then { s with gateway := { s.gateway with Job := "gin" } } else s
  (s.gateway.URL ++ "/metrics/job/" ++ s.gateway.Job ++ "/instance/" ++ h, s)

/-- Source: pushgateway.go, (*Prometheus).sendMetricsToPushGateway.  The
result pairs the state reached with the panic, if one was raised. -/
def sendMetricsToPushGateway (env : Env) (metrics : List UInt8) (s : PushState) :
    PushState × Option String :=
  let (url, s) := getURL env s
  if env.validURL url then
    let req : OutRequest := { method := "POST", url := url, body := metrics }
    let s := { s with sent := s.sent ++ [req] }
    match env.clientDo req with
    | some err => ({ s with logged := s.logged ++ ["Error sending to push gateway: %s" ++ err] }, none)
    | none => (s, none)
  else
    (s, some nilDeref)

/-- Source: pushgateway.go, (*Prometheus).getMetrics.  The result is the
state reached together with the body returned or the panic raised. -/
def getMetrics (env : Env) (s : PushState) : PushState × Except String (List UInt8) :=
  let (response, err) := env.httpGet s.gateway.MetricsURL
  let s := match err with
    | some e => { s with logged := s.logged ++ [e] }
    | none => s
  match response with
  | none => (s, .error nilDeref)
  | some resp =>
    let s := match resp.readError with
      | some e => { s with logged := s.logged ++ [e] }
      | none => s
    let s := match resp.closeError with
      | some e => { s with logged := s.logged ++ [e] }
      | none => s
    (s, .ok resp.body)

/-- One iteration of the loop of startPushTicker:
`p.sendMetricsToPushGateway(p.getMetrics())`. -/
def pushTick (env : Env) (s : PushState) : PushState × Option String :=
  match getMetrics env s with
  | (s, .error e) => (s, some e)
  | (s, .ok metrics) => sendMetricsToPushGateway env metrics s

/-- The goroutine of startPushTicker over the given ticks, each with its own
outside world: an unrecovered panic ends it, and no later tick is served. -/
def pushLoop : List Env → PushState → PushState × Option String
  | [], s => (s, none)
  | env :: rest, s =>
    match pushTick env s with
    | (s, some e) => (s, some e)
    | (s, none) => pushLoop rest s

/-! ## Concrete scenarios -/

/-- A process in which nothing has been allocated, registered or logged. -/
def emptyWorld : World :=
  { heap := [], registry := [], log := [], metricCollector := fun _ => none }

/-- The state in which the example GET request for a path enters the chain. -/
def exampleState (w : World) (path : String) : State :=
  { world := w
    ctx := { Request := exampleGet path "h" 0, Params := [], status := 200, size := -1 }
    now := 1000
    nextCalls := 0 }

/-- A downstream chain that answers 200 with 12 bytes after 5 nanoseconds. -/
def exampleNext : Downstream := fun s =>
  .ok { s with ctx := { s.ctx with status := 200, size := 12 }, now := s.now + 5 }

/-- An application engine without middleware and routes. -/
def emptyEngine : Engine := { middleware := [], routes := [], serving := [] }

/-- A push configuration as SetPushGateway leaves it, nothing logged or sent. -/
def examplePush : PushState :=
  { gateway := { PushInterval := 1000000000, URL := "http://gw:9091",
                 MetricsURL := "http://localhost:8080/metrics", Job := "" }
    logged := []
    sent := [] }

/-- An outside world in which the local metrics URL answers with a body and
the gateway accepts the push. -/
def reachableEnv : Env :=
  { hostname := .ok "web-1"
    httpGet := fun _ => (some { body := [117, 112], readError := none, closeError := none }, none)
    validURL := fun _ => true
    clientDo := fun _ => none }

/-- An outside world in which the local metrics URL cannot be reached. -/
def unreachableEnv : Env :=
  { reachableEnv with httpGet := fun _ => (none, some "dial tcp: connection refused") }


/-! ## Route templates -/

/-- A piece of a gin route template together with what it matched in the
request path: static text, or a named parameter `:name` and its value. -/
inductive Piece
  | static (text : String)
  | param (name value : String)
deriving DecidableEq, Repr

/-- The route template as written at registration, `:name` for a parameter. -/
def templateOf : List Piece → String
  | [] => ""
  | .static text :: t => text ++ templateOf t
  | .param name _ :: t => ":" ++ name ++ templateOf t

/-- The decoded request path gin matched against the template: the template
with every parameter replaced by its value. -/
def pathOf : List Piece → String
  | [] => ""
  | .static text :: t => text ++ pathOf t
  | .param _ value :: t => value ++ pathOf t

/-- The parameters gin hands to the handlers (`c.Params`), in template order. -/
def paramsOf : List Piece → List Param
  | [] => []
  | .static _ :: t => paramsOf t
  | .param name value :: t => { Key := name, Value := value } :: paramsOf t

/-- The conditions under which gin matches a named parameter: the value is
not empty and contains no slash. -/
def wellMatched : List Piece → Bool
  | [] => true
  | .static _ :: t => wellMatched t
  | .param _ value :: t => value ≠ "" && !value.data.contains '/' && wellMatched t

/-- The context of a GET request matched against a template.  gin matches
the decoded path and hands over decoded parameter values, while the closure
reads `URL.EscapedPath()`: `escaped` is that percent-encoded form of the
path as the client sent it, which equals the decoded path only when nothing
in it is percent-encoded. -/
def matchedContext (t : List Piece) (escaped : String) : Context :=
  { Request := exampleGet escaped "h" 0, Params := paramsOf t, status := 200, size := -1 }

/-- Whether every parameter value, when its turn to be replaced comes, first
occurs in the partly rewritten path at the position of the parameter itself;
`done` is the part already rewritten. -/
def ownPosition (done : String) : List Piece → Bool
  | [] => true
  | .static text :: t => ownPosition (done ++ text) t
  | .param name value :: t =>
    indexOf value.data (done ++ (value ++ pathOf t)).data == some done.data.length
      && ownPosition (done ++ (":" ++ name)) t


/-! ## What registerMetrics leaves behind -/

/-- The fully-qualified name under which a definition is registered. -/
def fqNameOf (subsystem : String) (d : MetricPtr) : String :=
  BuildFQName "" subsystem d.deref.Name

/-- The line errorLog prints when the registration of a definition is refused
as a duplicate. -/
def registrationError (d : MetricPtr) : String :=
  "[PROM]" ++ (d.deref.Name ++ " couldn't be registered in Prometheus: " ++ duplicateError)

/-- The handle the interceptor uses for a definition. -/
def Prometheus.handle (p : Prometheus) : MetricPtr → Option CollectorId
  | .uptime => p.uptime
  | .reqCnt => p.reqCnt
  | .reqDur => p.reqDur
  | .resSz => p.resSz
  | .reqSz => p.reqSz
  | .other _ _ => none

/-- The assignment made by the switch of registerMetrics. -/
def setHandle (p : Prometheus) (d : MetricPtr) (id : CollectorId) : Prometheus :=
  match d with
  | .uptime => { p with uptime := some id }
  | .reqCnt => { p with reqCnt := some id }
  | .reqDur => { p with reqDur := some id }
  | .resSz => { p with resSz := some id }
  | .reqSz => { p with reqSz := some id }
  | .other _ _ => p

/-- The collector NewMetric constructs for a definition. -/
def freshCollector (subsystem : String) (d : MetricPtr) : Collector :=
  match NewMetric d.deref subsystem with
  | some c => c
  | none => newCollector .counter subsystem d.deref.Name d.deref.Description []

/-- The registry after an attempt to register a collector under a name. -/
def regAdd (reg : List (String × CollectorId)) (name : String) (id : CollectorId) :
    List (String × CollectorId) :=
  if (reg.lookup name).isSome then reg else reg ++ [(name, id)]

/-- The world after one iteration of registerMetrics for a standard definition. -/
def stepWorld (subsystem : String) (w : World) (d : MetricPtr) : World :=
  { heap := w.heap ++ [freshCollector subsystem d]
    registry := regAdd w.registry (fqNameOf subsystem d) w.heap.length
    log := if w.taken (fqNameOf subsystem d) then w.log ++ [registrationError d] else w.log
    metricCollector := fun q => if q = d then some w.heap.length else w.metricCollector q }


/-- The loop of registerMetrics over standard definitions, as a function on
the handles and the world. -/
def registerResult (subsystem : String) (ds : List MetricPtr) (acc : Prometheus × World) :
    Prometheus × World :=
  ds.foldl (fun a d => (setHandle a.1 d a.2.heap.length, stepWorld subsystem a.2 d)) acc


/-- A process in which another component has already registered a collector
under the name gin_requests_total. -/
def duplicateWorld : World :=
  { heap := [newCollector .counterVec "gin" "requests_total" "registered earlier"
      ["code", "method", "host", "url"]]
    registry := [("gin_requests_total", 0)]
    log := []
    metricCollector := fun _ => none }


/-- The position of a definition in standardMetrics. -/
def position : MetricPtr → Nat
  | .uptime => 0
  | .reqCnt => 1
  | .reqDur => 2
  | .resSz => 3
  | .reqSz => 4
  | .other _ _ => 5


/-- A populated `*CounterVec` handle for the four request labels: it points
to a live counter vector with four label names. -/
def counterVecAt (heap : List Collector) (h : Option CollectorId) (id : CollectorId)
    (c : Collector) : Prop :=
  h = some id ∧ heap[id]? = some c ∧ c.kind = .counterVec ∧ c.labels.length = 4

/-- A populated Summary handle: it points to a live collector with an Observe method. -/
def summaryAt (heap : List Collector) (h : Option CollectorId) (id : CollectorId)
    (c : Collector) : Prop :=
  h = some id ∧ heap[id]? = some c ∧ (c.kind = .summary ∨ c.kind = .histogram)

/-- The handles and the world registerMetrics leaves behind in a process that
had nothing registered, for the subsystem gin. -/
def registered : Prometheus × World :=
  registerResult "gin" standardMetrics (freshPrometheus, emptyWorld)


/-! # Properties -/

/-! ## Request size -/

theorem wrapInt_add_left (a b : Int) : wrapInt (wrapInt a + b) = wrapInt (a + b) := by
  unfold wrapInt; omega

theorem wrapInt_of_inRange (x : Int) (h : inIntRange x) : wrapInt x = x := by
  unfold inIntRange at h; unfold wrapInt; omega

theorem valuesLoop_eq (vs : List String) (a : Int) :
    List.foldl (fun s value => addInt s (len value)) (wrapInt a) vs
      = wrapInt (a + (vs.map len).sum) := by
  induction vs generalizing a with
  | nil => simp
  | cons v vs ih =>
    rw [List.foldl_cons, show addInt (wrapInt a) (len v) = wrapInt (a + len v) from
      wrapInt_add_left a (len v), ih]
    simp only [List.map_cons, List.sum_cons]
    congr 1; ring

theorem headerLoop_eq (h : List (String × List String)) (a : Int) :
    headerLoop (wrapInt a) h = wrapInt (a + headerBytes h) := by
  induction h generalizing a with
  | nil => simp [headerLoop, headerBytes]
  | cons nv h ih =>
    have step : headerLoop (wrapInt a) (nv :: h)
        = headerLoop (wrapInt (a + len nv.1 + (nv.2.map len).sum)) h := by
      unfold headerLoop
      rw [List.foldl_cons, show addInt (wrapInt a) (len nv.1) = wrapInt (a + len nv.1) from
        wrapInt_add_left a (len nv.1), valuesLoop_eq]
    rw [step, ih]
    simp only [headerBytes, List.map_cons, List.sum_cons]
    congr 1; ring

theorem computeApproximateRequestSize_wrap (r : Request) :
    computeApproximateRequestSize r = wrapInt (exactRequestSize r) := by
  have h0 : (match r.URL with
      | some u => len u.string
      | none => (0 : Int)) = urlLen r := rfl
  unfold computeApproximateRequestSize exactRequestSize
  simp only [h0]
  rw [show addInt (addInt (urlLen r) (len r.Method)) (len r.Proto)
      = wrapInt (urlLen r + len r.Method + len r.Proto) from wrapInt_add_left _ _,
    headerLoop_eq]
  split
  · simp only [addInt, wrapInt]; omega
  · simp only [addInt, wrapInt]; omega

/-- C4 (as stated, refuted): with content length -2 the code adds -2, so the
result is 13 and not the 15 of the specified sum, which adds nothing for a
negative content length. -/
theorem C4_negative_content_length_counterexample :
    computeApproximateRequestSize (exampleGet "/" "h" (-2)) = 13 ∧
    specRequestSize (exampleGet "/" "h" (-2)) = 15 := by
  decide

/-- C4 (amended): whenever the exact sum fits a Go int, the result is the
length of the URL string (0 when absent) plus the lengths of method, protocol
and host, plus the header name and value lengths, plus the content length
unless it equals -1. -/
theorem C4_computeApproximateRequestSize_sum (r : Request)
    (h : inIntRange (urlLen r + len r.Method + len r.Proto + headerBytes r.Header + len r.Host
      + (if r.ContentLength ≠ -1 then r.ContentLength else 0))) :
    computeApproximateRequestSize r
      = urlLen r + len r.Method + len r.Proto + headerBytes r.Header + len r.Host
        + (if r.ContentLength ≠ -1 then r.ContentLength else 0) := by
  rw [computeApproximateRequestSize_wrap]
  exact wrapInt_of_inRange _ h

/-- C4 witness: the GET example of the specification, path /users, host h. -/
theorem C4_computeApproximateRequestSize_sum_witness :
    computeApproximateRequestSize (exampleGet "/users" "h" 0)
      = len "/users" + len "GET" + len "HTTP/1.1" + len "X" + len "Y" + len "h" :=
  (C4_computeApproximateRequestSize_sum (exampleGet "/users" "h" 0)
    (by unfold inIntRange; decide)).trans (by decide)

/-! ## The scrape path is bypassed -/

/-- C1: for a request whose URL string equals metricsPath, the middleware is
exactly one call of `c.Next()`: the outcome (world with every collector,
context, clock, panic if any) is that of running the downstream chain once
from the state the middleware was entered in, and the call count goes up by
one when the chain returns. -/
theorem C1_scrape_path_bypass (p : Prometheus) (metricsPath : String) (next : Downstream)
    (s : State) (u : Url) (hu : s.ctx.Request.URL = some u) (hpath : u.string = metricsPath) :
    handlerFunc p metricsPath next s = cNext next s ∧
    (∀ s1, next s = .ok s1 →
      ∃ s2, handlerFunc p metricsPath next s = .ok s2 ∧
        s2.world.heap = s1.world.heap ∧ s2.world.registry = s1.world.registry ∧
        s2.world.log = s1.world.log ∧ s2.ctx = s1.ctx ∧
        s2.nextCalls = s.nextCalls + 1) := by
  have h : handlerFunc p metricsPath next s = cNext next s := by
    unfold handlerFunc
    rw [hu]
    simp [hpath]
  refine ⟨h, ?_⟩
  intro s1 h1
  refine ⟨{ s1 with nextCalls := s.nextCalls + 1 }, ?_, rfl, rfl, rfl, rfl, rfl⟩
  rw [h]
  simp [cNext, h1]

/-- C1 witness: the example GET for /metrics with the scrape path /metrics. -/
theorem C1_scrape_path_bypass_witness :
    handlerFunc freshPrometheus "/metrics" exampleNext (exampleState emptyWorld "/metrics")
      = cNext exampleNext (exampleState emptyWorld "/metrics") :=
  (C1_scrape_path_bypass freshPrometheus "/metrics" exampleNext
    (exampleState emptyWorld "/metrics") { string := "/metrics", escapedPath := "/metrics" }
    rfl rfl).1

/-! ## The push reporter -/

theorem getURL_sent (env : Env) (s : PushState) : (getURL env s).2.sent = s.sent := by
  unfold getURL
  by_cases hj : s.gateway.Job = "" <;> simp [hj]

theorem sendMetricsToPushGateway_sent (env : Env) (metrics : List UInt8) (s : PushState) :
    (sendMetricsToPushGateway env metrics s).1.sent
      = if env.validURL (getURL env s).1 = true then
          s.sent ++ [{ method := "POST", url := (getURL env s).1, body := metrics }]
        else s.sent := by
  unfold sendMetricsToPushGateway
  by_cases hv : env.validURL (getURL env s).1 = true
  · simp only [hv, if_true]
    cases env.clientDo _ <;> simp [getURL_sent]
  · simp [hv, getURL_sent]

/-- C9: getURL returns the gateway URL, "/metrics/job/", the job name ("gin"
when it is empty), "/instance/" and the host name (empty when the lookup
fails); sendMetricsToPushGateway sends no request but a POST to that URL with
the given bytes as body, and sends exactly that one whenever the URL can be
parsed. -/
theorem C9_getURL_and_post (env : Env) (s : PushState) (metrics : List UInt8) :
    (getURL env s).1
      = s.gateway.URL ++ "/metrics/job/" ++ (if s.gateway.Job = "" then "gin" else s.gateway.Job)
          ++ "/instance/" ++ (match env.hostname with
            | .ok name => name
            | .error _ => "") ∧
    (env.validURL (getURL env s).1 = true →
      (sendMetricsToPushGateway env metrics s).1.sent
        = s.sent ++ [{ method := "POST", url := (getURL env s).1, body := metrics }]) ∧
    (∀ r ∈ (sendMetricsToPushGateway env metrics s).1.sent,
      r ∈ s.sent ∨ r = { method := "POST", url := (getURL env s).1, body := metrics }) := by
  refine ⟨?_, ?_, ?_⟩
  · unfold getURL
    by_cases hj : s.gateway.Job = "" <;> simp [hj]
  · intro hv
    rw [sendMetricsToPushGateway_sent, if_pos hv]
  · intro r hr
    rw [sendMetricsToPushGateway_sent] at hr
    split at hr
    · simpa using hr
    · exact Or.inl hr

/-- C9 witness: an empty job name and a failing host name lookup give
http://gw:9091/metrics/job/gin/instance/ and one POST of the bytes to it. -/
theorem C9_getURL_and_post_witness :
    (getURL { reachableEnv with hostname := .error "no hostname" } examplePush).1
      = "http://gw:9091/metrics/job/gin/instance/" ∧
    (sendMetricsToPushGateway { reachableEnv with hostname := .error "no hostname" }
        [1, 2] examplePush).1.sent
      = [{ method := "POST", url := "http://gw:9091/metrics/job/gin/instance/", body := [1, 2] }] :=
  ⟨by decide,
   (C9_getURL_and_post { reachableEnv with hostname := .error "no hostname" }
      examplePush [1, 2]).2.1 (by decide)⟩

/-- C8 (failing input): when `http.Get` of the local metrics URL fails, the
tick logs the error and then panics on the nil response; the goroutine ends,
and a later tick at which everything is reachable sends nothing. -/
theorem C8_unreachable_metrics_url_panics :
    pushTick unreachableEnv examplePush
      = ({ examplePush with logged := ["dial tcp: connection refused"] }, some nilDeref) ∧
    pushLoop [unreachableEnv, reachableEnv] examplePush
      = ({ examplePush with logged := ["dial tcp: connection refused"] }, some nilDeref) ∧
    (pushLoop [reachableEnv, reachableEnv] examplePush).1.sent.length = 2 := by
  decide

/-! ## The scrape route -/

/-- C10 (failing input): with no listen address configured, UseWithCustomMetrics
panics on the nil router and registers no route, while Use and UseWithAuth
register the route on the engine they are given; with a listen address
configured, UseWithCustomMetrics registers the route on the separate router
but starts no server, while Use starts one. -/
theorem C10_custom_metrics_ignores_listen_address :
    UseWithCustomMetrics freshPrometheus (some 0) 7 "/metrics" [emptyEngine] = .error nilDeref ∧
    (Use freshPrometheus (some 0) "/metrics" [emptyEngine]).map (routersWith "/metrics")
      = .ok [0] ∧
    (UseWithAuth freshPrometheus (some 0) [("gin", "gonic")] "/metrics" [emptyEngine]).map
      (routersWith "/metrics") = .ok [0] ∧
    (UseWithCustomMetrics (SetListenAddress ":9090" freshPrometheus [emptyEngine]).1 (some 0) 7
        "/metrics" (SetListenAddress ":9090" freshPrometheus [emptyEngine]).2).map
      (fun g => (routersWith "/metrics" g, g.map (fun e => e.serving)))
      = .ok ([1], [[], []]) ∧
    (Use (SetListenAddress ":9090" freshPrometheus [emptyEngine]).1 (some 0)
        "/metrics" (SetListenAddress ":9090" freshPrometheus [emptyEngine]).2).map
      (fun g => (routersWith "/metrics" g, g.map (fun e => e.serving)))
      = .ok ([1], [[], [":9090"]]) :=
  ⟨rfl, rfl, rfl, rfl, rfl⟩

/-! ## URL normalisation -/

theorem replaceOnce_at (done value new rest : String)
    (h : indexOf value.data (done ++ (value ++ rest)).data = some done.data.length) :
    replaceOnce (done ++ (value ++ rest)) value new = done ++ (new ++ rest) := by
  unfold replaceOnce
  by_cases hvn : value = new
  · simp [hvn]
  · simp only [hvn, if_false, h]
    apply String.ext
    have hd : List.drop (done.data.length + value.data.length)
        (done.data ++ (value.data ++ rest.data)) = rest.data := by
      rw [← List.append_assoc, ← List.length_append]
      exact List.drop_left _ _
    simp only [String.data_append, List.take_left, hd, List.append_assoc]

theorem formatFold_eq (t : List Piece) :
    ∀ done : String, ownPosition done t = true →
      (paramsOf t).foldl (fun url p => replaceOnce url p.Value (":" ++ p.Key)) (done ++ pathOf t)
        = done ++ templateOf t := by
  induction t with
  | nil => intro done _; simp [paramsOf, pathOf, templateOf]
  | cons piece t ih =>
    intro done h
    cases piece with
    | static text =>
      simp only [ownPosition] at h
      simp only [paramsOf, pathOf, templateOf]
      rw [← String.append_assoc, ← String.append_assoc]
      exact ih (done ++ text) h
    | param name value =>
      simp only [ownPosition, Bool.and_eq_true, beq_iff_eq] at h
      simp only [paramsOf, pathOf, templateOf, List.foldl_cons]
      rw [replaceOnce_at done value (":" ++ name) (pathOf t) h.1]
      have e1 : done ++ (":" ++ name ++ pathOf t) = done ++ (":" ++ name) ++ pathOf t := by
        simp only [String.append_assoc]
      have e2 : done ++ (":" ++ name ++ templateOf t) = done ++ (":" ++ name) ++ templateOf t := by
        simp only [String.append_assoc]
      rw [e1, e2]
      exact ih (done ++ (":" ++ name)) h.2

/-- C3 (as stated, refuted): the template /a/:id matched by the path /a/a
(id = a) is labelled /:id/a, not /a/:id, because the value first occurs
before the parameter; and the template /users/:id matched by the request
/users/50%25 (id = 50%, escaped path /users/50%25) is labelled /users/:id25,
not /users/:id, because the decoded value is searched in the escaped path. -/
theorem C3_first_occurrence_counterexample :
    (wellMatched [.static "/a/", .param "id" "a"] = true ∧
      pathOf [.static "/a/", .param "id" "a"] = "/a/a" ∧
      templateOf [.static "/a/", .param "id" "a"] = "/a/:id" ∧
      defaultFormatCounterURL (matchedContext [.static "/a/", .param "id" "a"] "/a/a")
        = .ok "/:id/a") ∧
    (wellMatched [.static "/users/", .param "id" "50%"] = true ∧
      pathOf [.static "/users/", .param "id" "50%"] = "/users/50%" ∧
      templateOf [.static "/users/", .param "id" "50%"] = "/users/:id" ∧
      ownPosition "" [.static "/users/", .param "id" "50%"] = true ∧
      defaultFormatCounterURL
          (matchedContext [.static "/users/", .param "id" "50%"] "/users/50%25")
        = .ok "/users/:id25") :=
  ⟨⟨by decide, by decide, by decide, rfl⟩, ⟨by decide, by decide, by decide, by decide, rfl⟩⟩

/-- C3 (amended): for a route template with named parameters and a request
path that matches it, when the escaped path the closure reads is the decoded
path gin matched (nothing in it is percent-encoded) and each parameter value,
at its turn, first occurs in the partly rewritten path at the position of
that parameter, the default FormatCounterURL returns the route template
itself. -/
theorem C3_template_when_values_at_own_position (t : List Piece) (c : Context) (u : Url)
    (hurl : c.Request.URL = some u) (hpath : u.escapedPath = pathOf t)
    (hparams : c.Params = paramsOf t) (hpos : ownPosition "" t = true) :
    defaultFormatCounterURL c = .ok (templateOf t) := by
  unfold defaultFormatCounterURL
  rw [hurl]
  simp only [hpath, hparams]
  have h := formatFold_eq t "" hpos
  simp only [String.empty_append] at h
  rw [h]

/-- C3 witness: the template /users/:id matched with id = 42, requested as
/users/42, is labelled /users/:id. -/
theorem C3_template_when_values_at_own_position_witness :
    defaultFormatCounterURL (matchedContext [.static "/users/", .param "id" "42"] "/users/42")
      = .ok "/users/:id" :=
  C3_template_when_values_at_own_position [.static "/users/", .param "id" "42"]
    (matchedContext [.static "/users/", .param "id" "42"] "/users/42")
    { string := "/users/42", escapedPath := "/users/42" } rfl (by decide) rfl (by decide)

/-! ## registerMetrics -/

theorem freshCollector_fqName (subsystem : String) (d : MetricPtr) (hd : d ∈ standardMetrics) :
    (freshCollector subsystem d).fqName = fqNameOf subsystem d := by
  simp only [standardMetrics, List.mem_cons, List.mem_singleton, List.not_mem_nil, or_false] at hd
  rcases hd with h | h | h | h | h <;> subst h <;>
    simp [freshCollector, NewMetric, MetricPtr.deref, uptime, reqCnt, reqDur, resSz, reqSz,
      newCollector, fqNameOf]

theorem registerStep_standard (subsystem : String) (p : Prometheus) (w : World) (d : MetricPtr)
    (hd : d ∈ standardMetrics) :
    registerStep subsystem (p, w) d
      = .ok (setHandle p d w.heap.length, stepWorld subsystem w d) := by
  by_cases ht : w.taken (fqNameOf subsystem d) = true <;>
    simp only [standardMetrics, List.mem_cons, List.mem_singleton, List.not_mem_nil,
      or_false] at hd <;>
    rcases hd with h | h | h | h | h <;> subst h <;>
    simp [registerStep, alloc, Register, World.taken, errorLog, assertCounterVec, assertSummary,
      setHandle, stepWorld, regAdd, registrationError, freshCollector, NewMetric,
      MetricPtr.deref, uptime, reqCnt, reqDur, resSz, reqSz, newCollector, fqNameOf,
      Except.map] at ht ⊢ <;>
    simp [ht]

theorem registerLoop_standard (subsystem : String) (ds : List MetricPtr)
    (hds : ∀ d ∈ ds, d ∈ standardMetrics) (acc : Prometheus × World) :
    registerLoop subsystem ds acc = .ok (registerResult subsystem ds acc) := by
  induction ds generalizing acc with
  | nil => rfl
  | cons d ds ih =>
    have hd : d ∈ standardMetrics := hds d (List.mem_cons_self d ds)
    have hrest : ∀ x ∈ ds, x ∈ standardMetrics := fun x hx => hds x (List.mem_cons_of_mem d hx)
    obtain ⟨p, w⟩ := acc
    simp only [registerLoop, registerStep_standard subsystem p w d hd]
    rw [ih hrest]
    rfl

theorem lookup_regAdd (reg : List (String × CollectorId)) (n m : String) (id : CollectorId) :
    (regAdd reg n id).lookup m
      = match reg.lookup m with
        | some x => some x
        | none => if m = n then some id else none := by
  unfold regAdd
  by_cases hr : (List.lookup n reg).isSome = true
  · simp only [hr, if_true]
    cases hm : List.lookup m reg with
    | some x => rfl
    | none =>
      have hmn : ¬ m = n := by
        intro h; subst h; simp [hm] at hr
      simp [hmn]
  · rw [if_neg hr, List.lookup_append]
    cases hm : List.lookup m reg with
    | some x => simp
    | none =>
      by_cases hmn : m = n
      · simp [hmn, List.lookup]
      · have h2 : (m == n) = false := by simpa using hmn
        simp [hmn, List.lookup, h2]

theorem string_append_left_cancel (a b c : String) (h : a ++ b = a ++ c) : b = c := by
  have h2 := congrArg String.data h
  simp only [String.data_append] at h2
  exact String.ext (List.append_cancel_left h2)

theorem BuildFQName_cancel (subsystem a b : String) (ha : a ≠ "") (hb : b ≠ "")
    (h : BuildFQName "" subsystem a = BuildFQName "" subsystem b) : a = b := by
  unfold BuildFQName at h
  by_cases hs : subsystem = ""
  · simpa [ha, hb, hs] using h
  · simp only [ha, hb, hs, if_false, ne_eq, not_true_eq_false, false_and, not_false_eq_true,
      if_true] at h
    rw [String.append_assoc, String.append_assoc] at h
    exact string_append_left_cancel _ _ _ (string_append_left_cancel _ _ _ h)

theorem fqNameOf_inj (subsystem : String) (d e : MetricPtr) (hd : d ∈ standardMetrics)
    (he : e ∈ standardMetrics) (h : fqNameOf subsystem d = fqNameOf subsystem e) : d = e := by
  have hname : d.deref.Name = e.deref.Name := by
    apply BuildFQName_cancel subsystem _ _ _ _ h
    · simp only [standardMetrics, List.mem_cons, List.mem_singleton, List.not_mem_nil,
        or_false] at hd
      rcases hd with h | h | h | h | h <;> subst h <;> decide
    · simp only [standardMetrics, List.mem_cons, List.mem_singleton, List.not_mem_nil,
        or_false] at he
      rcases he with h | h | h | h | h <;> subst h <;> decide
  simp only [standardMetrics, List.mem_cons, List.mem_singleton, List.not_mem_nil,
    or_false] at hd he
  rcases hd with h1 | h1 | h1 | h1 | h1 <;> rcases he with h2 | h2 | h2 | h2 | h2 <;>
    subst h1 <;> subst h2 <;> first | rfl | (exact absurd hname (by decide))

theorem taken_stepWorld (subsystem : String) (w : World) (d : MetricPtr) (m : String) :
    (stepWorld subsystem w d).taken m = (w.taken m || m == fqNameOf subsystem d) := by
  simp only [World.taken, stepWorld, lookup_regAdd]
  cases List.lookup m w.registry with
  | some x => simp
  | none =>
    by_cases h : m = fqNameOf subsystem d
    · simp [h]
    · have h2 : (m == fqNameOf subsystem d) = false := by simpa using h
      simp [h, h2]

theorem registerResult_heap (subsystem : String) (p : Prometheus) (w : World) :
    (registerResult subsystem standardMetrics (p, w)).2.heap
      = w.heap ++ standardMetrics.map (freshCollector subsystem) := by
  simp [registerResult, standardMetrics, stepWorld]

theorem registerResult_handles (subsystem : String) (p : Prometheus) (w : World) :
    (registerResult subsystem standardMetrics (p, w)).1.uptime = some w.heap.length ∧
    (registerResult subsystem standardMetrics (p, w)).1.reqCnt = some (w.heap.length + 1) ∧
    (registerResult subsystem standardMetrics (p, w)).1.reqDur = some (w.heap.length + 2) ∧
    (registerResult subsystem standardMetrics (p, w)).1.resSz = some (w.heap.length + 3) ∧
    (registerResult subsystem standardMetrics (p, w)).1.reqSz = some (w.heap.length + 4) := by
  simp [registerResult, standardMetrics, stepWorld, setHandle]

theorem registerResult_lookup (subsystem : String) (p : Prometheus) (w : World) (m : String) :
    (registerResult subsystem standardMetrics (p, w)).2.registry.lookup m
      = match w.registry.lookup m with
        | some x => some x
        | none =>
          if m = fqNameOf subsystem .uptime then some w.heap.length
          else if m = fqNameOf subsystem .reqCnt then some (w.heap.length + 1)
          else if m = fqNameOf subsystem .reqDur then some (w.heap.length + 2)
          else if m = fqNameOf subsystem .resSz then some (w.heap.length + 3)
          else if m = fqNameOf subsystem .reqSz then some (w.heap.length + 4)
          else none := by
  simp only [registerResult, standardMetrics, List.foldl, stepWorld, lookup_regAdd,
    List.length_append, List.length_singleton]
  cases List.lookup m w.registry with
  | some x => rfl
  | none =>
    simp only [Nat.add_assoc, Nat.reduceAdd]
    by_cases h0 : m = fqNameOf subsystem .uptime
    · simp only [if_pos h0]
    · simp only [if_neg h0]
      by_cases h1 : m = fqNameOf subsystem .reqCnt
      · simp only [if_pos h1]
      · simp only [if_neg h1]
        by_cases h2 : m = fqNameOf subsystem .reqDur
        · simp only [if_pos h2]
        · simp only [if_neg h2]
          by_cases h3 : m = fqNameOf subsystem .resSz
          · simp only [if_pos h3]
          · simp only [if_neg h3]

theorem fqNameOf_beq (subsystem : String) (d e : MetricPtr) (hd : d ∈ standardMetrics)
    (he : e ∈ standardMetrics) (hne : d ≠ e) :
    (fqNameOf subsystem d == fqNameOf subsystem e) = false := by
  have h : fqNameOf subsystem d ≠ fqNameOf subsystem e :=
    fun h => hne (fqNameOf_inj subsystem d e hd he h)
  simpa using h

theorem stepWorld_log (subsystem : String) (w : World) (d : MetricPtr) :
    (stepWorld subsystem w d).log
      = if w.taken (fqNameOf subsystem d) then w.log ++ [registrationError d] else w.log := rfl

theorem registerResult_log (subsystem : String) (p : Prometheus) (w : World) :
    (registerResult subsystem standardMetrics (p, w)).2.log
      = w.log ++ (standardMetrics.filter (fun d => w.taken (fqNameOf subsystem d))).map
          registrationError := by
  have e10 := fqNameOf_beq subsystem .reqCnt .uptime (by decide) (by decide) (by decide)
  have e20 := fqNameOf_beq subsystem .reqDur .uptime (by decide) (by decide) (by decide)
  have e21 := fqNameOf_beq subsystem .reqDur .reqCnt (by decide) (by decide) (by decide)
  have e30 := fqNameOf_beq subsystem .resSz .uptime (by decide) (by decide) (by decide)
  have e31 := fqNameOf_beq subsystem .resSz .reqCnt (by decide) (by decide) (by decide)
  have e32 := fqNameOf_beq subsystem .resSz .reqDur (by decide) (by decide) (by decide)
  have e40 := fqNameOf_beq subsystem .reqSz .uptime (by decide) (by decide) (by decide)
  have e41 := fqNameOf_beq subsystem .reqSz .reqCnt (by decide) (by decide) (by decide)
  have e42 := fqNameOf_beq subsystem .reqSz .reqDur (by decide) (by decide) (by decide)
  have e43 := fqNameOf_beq subsystem .reqSz .resSz (by decide) (by decide) (by decide)
  simp only [registerResult, standardMetrics, List.foldl, stepWorld_log, taken_stepWorld,
    e10, e20, e21, e30, e31, e32, e40, e41, e42, e43, Bool.or_false, List.filter]
  cases w.taken (fqNameOf subsystem .uptime) <;>
    cases w.taken (fqNameOf subsystem .reqCnt) <;>
    cases w.taken (fqNameOf subsystem .reqDur) <;>
    cases w.taken (fqNameOf subsystem .resSz) <;>
    cases w.taken (fqNameOf subsystem .reqSz) <;> simp

theorem registerMetrics_standard (subsystem : String) (p : Prometheus) (w : World)
    (hl : p.MetricsList = standardMetrics) :
    registerMetrics subsystem p w = .ok (registerResult subsystem standardMetrics (p, w)) := by
  unfold registerMetrics
  rw [hl]
  exact registerLoop_standard subsystem standardMetrics (fun _ h => h) (p, w)

theorem registerResult_handle (subsystem : String) (p : Prometheus) (w : World) (d : MetricPtr)
    (hd : d ∈ standardMetrics) :
    (registerResult subsystem standardMetrics (p, w)).1.handle d
        = some (w.heap.length + position d) ∧
    (registerResult subsystem standardMetrics (p, w)).2.heap[w.heap.length + position d]?
        = some (freshCollector subsystem d) := by
  obtain ⟨h0, h1, h2, h3, h4⟩ := registerResult_handles subsystem p w
  rw [registerResult_heap, List.getElem?_append_right (Nat.le_add_right _ _)]
  simp only [standardMetrics, List.mem_cons, List.mem_singleton, List.not_mem_nil,
    or_false] at hd
  refine ⟨?_, ?_⟩
  · rcases hd with h | h | h | h | h <;> subst h <;>
      simp only [Prometheus.handle, position, Nat.add_zero] <;> assumption
  · rcases hd with h | h | h | h | h <;> subst h <;> simp [position, standardMetrics]

theorem registerResult_lookup_old (subsystem : String) (p : Prometheus) (w : World) (m : String)
    (x : CollectorId) (h : w.registry.lookup m = some x) :
    (registerResult subsystem standardMetrics (p, w)).2.registry.lookup m = some x := by
  rw [registerResult_lookup, h]

theorem registerResult_lookup_new (subsystem : String) (p : Prometheus) (w : World)
    (d : MetricPtr) (hd : d ∈ standardMetrics)
    (h : w.registry.lookup (fqNameOf subsystem d) = none) :
    (registerResult subsystem standardMetrics (p, w)).2.registry.lookup (fqNameOf subsystem d)
      = some (w.heap.length + position d) := by
  have e10 := fqNameOf_beq subsystem .reqCnt .uptime (by decide) (by decide) (by decide)
  have e20 := fqNameOf_beq subsystem .reqDur .uptime (by decide) (by decide) (by decide)
  have e21 := fqNameOf_beq subsystem .reqDur .reqCnt (by decide) (by decide) (by decide)
  have e30 := fqNameOf_beq subsystem .resSz .uptime (by decide) (by decide) (by decide)
  have e31 := fqNameOf_beq subsystem .resSz .reqCnt (by decide) (by decide) (by decide)
  have e32 := fqNameOf_beq subsystem .resSz .reqDur (by decide) (by decide) (by decide)
  have e40 := fqNameOf_beq subsystem .reqSz .uptime (by decide) (by decide) (by decide)
  have e41 := fqNameOf_beq subsystem .reqSz .reqCnt (by decide) (by decide) (by decide)
  have e42 := fqNameOf_beq subsystem .reqSz .reqDur (by decide) (by decide) (by decide)
  have e43 := fqNameOf_beq subsystem .reqSz .resSz (by decide) (by decide) (by decide)
  simp only [beq_eq_false_iff_ne, ne_eq] at e10 e20 e21 e30 e31 e32 e40 e41 e42 e43
  rw [registerResult_lookup, h]
  simp only [standardMetrics, List.mem_cons, List.mem_singleton, List.not_mem_nil,
    or_false] at hd
  rcases hd with h | h | h | h | h <;> subst h <;>
    simp [position, e10, e20, e21, e30, e31, e32, e40, e41, e42, e43]

theorem registerResult_lookup_inv (subsystem : String) (p : Prometheus) (w : World) (m : String)
    (x : CollectorId)
    (h : (registerResult subsystem standardMetrics (p, w)).2.registry.lookup m = some x) :
    w.registry.lookup m = some x ∨
      ∃ d ∈ standardMetrics, m = fqNameOf subsystem d ∧ w.registry.lookup m = none ∧
        x = w.heap.length + position d := by
  rw [registerResult_lookup] at h
  cases hm : List.lookup m w.registry with
  | some y => left; simpa [hm] using h
  | none =>
    right
    simp only [hm] at h
    split_ifs at h with c0 c1 c2 c3 c4
    · exact ⟨.uptime, by decide, c0, rfl, by simpa [position] using h.symm⟩
    · exact ⟨.reqCnt, by decide, c1, rfl, by simpa [position] using h.symm⟩
    · exact ⟨.reqDur, by decide, c2, rfl, by simpa [position] using h.symm⟩
    · exact ⟨.resSz, by decide, c3, rfl, by simpa [position] using h.symm⟩
    · exact ⟨.reqSz, by decide, c4, rfl, by simpa [position] using h.symm⟩

theorem position_inj (d e : MetricPtr) (hd : d ∈ standardMetrics) (he : e ∈ standardMetrics)
    (h : position d = position e) : d = e := by
  simp only [standardMetrics, List.mem_cons, List.mem_singleton, List.not_mem_nil,
    or_false] at hd he
  rcases hd with h1 | h1 | h1 | h1 | h1 <;> rcases he with h2 | h2 | h2 | h2 | h2 <;>
    subst h1 <;> subst h2 <;> first | rfl | (exact absurd h (by decide))

/-- C6: whatever names are already registered, registerMetrics over the five
standard definitions does not panic; it logs exactly one error line per
definition whose name was taken, in order; every name registered before
keeps the collector it had; every definition whose name was free is
registered with the collector constructed for it; and all five definitions
are processed, each getting a new collector and a handle. -/
theorem C6_registerMetrics_tolerates_duplicates (subsystem : String) (p : Prometheus)
    (w : World) (hl : p.MetricsList = standardMetrics) :
    ∃ p1 w1, registerMetrics subsystem p w = .ok (p1, w1) ∧
      w1.log = w.log ++ (standardMetrics.filter (fun d => w.taken (fqNameOf subsystem d))).map
        registrationError ∧
      (∀ name id, w.registered name = some id → w1.registered name = some id) ∧
      (∀ d ∈ standardMetrics, w.taken (fqNameOf subsystem d) = false →
        ∃ id, w1.registered (fqNameOf subsystem d) = some id ∧
          w1.heap[id]? = some (freshCollector subsystem d)) ∧
      (∀ d ∈ standardMetrics, ∃ id, p1.handle d = some id ∧
          w1.heap[id]? = some (freshCollector subsystem d)) ∧
      w1.heap = w.heap ++ standardMetrics.map (freshCollector subsystem) := by
  refine ⟨_, _, registerMetrics_standard subsystem p w hl, registerResult_log subsystem p w,
    ?_, ?_, ?_, registerResult_heap subsystem p w⟩
  · intro name id h
    exact registerResult_lookup_old subsystem p w name id h
  · intro d hd ht
    refine ⟨w.heap.length + position d, ?_, (registerResult_handle subsystem p w d hd).2⟩
    apply registerResult_lookup_new subsystem p w d hd
    simpa [World.taken] using ht
  · intro d hd
    exact ⟨w.heap.length + position d, registerResult_handle subsystem p w d hd⟩

/-- C6 witness: with gin_requests_total registered beforehand, one error is
logged, that name keeps collector 0, and gin_uptime gets registered. -/
theorem C6_registerMetrics_tolerates_duplicates_witness :
    ∃ p1 w1, registerMetrics "gin" freshPrometheus duplicateWorld = .ok (p1, w1) ∧
      w1.log = ["[PROM]requests_total couldn't be registered in Prometheus: " ++
        "duplicate metrics collector registration attempted"] ∧
      w1.registered "gin_requests_total" = some 0 ∧
      (∃ id, w1.registered "gin_uptime" = some id ∧
        w1.heap[id]? = some (freshCollector "gin" .uptime)) := by
  obtain ⟨p1, w1, h, hlog, hold, hnew, _, _⟩ :=
    C6_registerMetrics_tolerates_duplicates "gin" freshPrometheus duplicateWorld rfl
  refine ⟨p1, w1, h, ?_, hold _ _ (by decide), hnew .uptime (by decide) (by decide)⟩
  rw [hlog]; decide

/-- C7 (as stated, refuted): with gin_requests_total registered beforehand as
collector 0, the handle p.reqCnt after registerMetrics is the new collector 2,
while the registry still holds collector 0 under that name. -/
theorem C7_handle_is_not_the_registered_collector :
    ∃ p1 w1, registerMetrics "gin" freshPrometheus duplicateWorld = .ok (p1, w1) ∧
      p1.reqCnt = some 2 ∧ w1.registered "gin_requests_total" = some 0 :=
  ⟨_, _, registerMetrics_standard "gin" freshPrometheus duplicateWorld rfl,
    (registerResult_handles "gin" freshPrometheus duplicateWorld).2.1,
    registerResult_lookup_old "gin" freshPrometheus duplicateWorld "gin_requests_total" 0
      (by decide)⟩

/-- C7 (amended): when the name of a standard definition is already
registered, the handle the interceptor uses for it after registerMetrics is
the collector NewMetric has just constructed; it differs from the collector
registered under the name, which stays registered, and the registry holds
the new collector under no name. -/
theorem C7_handle_is_new_and_unregistered (subsystem : String) (p : Prometheus) (w : World)
    (hl : p.MetricsList = standardMetrics)
    (hwf : ∀ n x, w.registered n = some x → x < w.heap.length)
    (d : MetricPtr) (hd : d ∈ standardMetrics) (old : CollectorId)
    (hdup : w.registered (fqNameOf subsystem d) = some old) :
    ∃ p1 w1 id, registerMetrics subsystem p w = .ok (p1, w1) ∧
      p1.handle d = some id ∧
      w1.heap[id]? = some (freshCollector subsystem d) ∧
      id ≠ old ∧
      w1.registered (fqNameOf subsystem d) = some old ∧
      (∀ n, w1.registered n ≠ some id) := by
  have hh := registerResult_handle subsystem p w d hd
  refine ⟨_, _, w.heap.length + position d, registerMetrics_standard subsystem p w hl,
    hh.1, hh.2, ?_, registerResult_lookup_old subsystem p w _ old hdup, ?_⟩
  · exact Nat.ne_of_gt (Nat.lt_of_lt_of_le (hwf _ _ hdup) (Nat.le_add_right _ _))
  · intro n hn
    rcases registerResult_lookup_inv subsystem p w n _ hn with h | ⟨e, he, hne, hnone, hpos⟩
    · exact absurd (hwf n _ h) (Nat.not_lt.mpr (Nat.le_add_right _ _))
    · have hde : d = e := position_inj d e hd he (Nat.add_left_cancel hpos)
      subst hde
      rw [hne] at hnone
      simp only [World.registered] at hdup
      rw [hdup] at hnone
      exact absurd hnone (by simp)

/-- C7 witness: the process in which gin_requests_total is registered beforehand. -/
theorem C7_handle_is_new_and_unregistered_witness :
    ∃ p1 w1 id, registerMetrics "gin" freshPrometheus duplicateWorld = .ok (p1, w1) ∧
      p1.handle .reqCnt = some id ∧
      w1.heap[id]? = some (freshCollector "gin" .reqCnt) ∧
      id ≠ 0 ∧
      w1.registered (fqNameOf "gin" .reqCnt) = some 0 ∧
      (∀ n, w1.registered n ≠ some id) :=
  C7_handle_is_new_and_unregistered "gin" freshPrometheus duplicateWorld rfl
    (by
      intro n x h
      simp only [World.registered, duplicateWorld, List.lookup] at h
      split at h
      · simp only [Option.some.injEq] at h; subst h; decide
      · simp at h)
    .reqCnt (by decide) 0 (by decide)

/-! ## The constructor -/

theorem seriesValue_incSeries_self (key : List String) (s : List (List String × Nat)) :
    seriesValue key (incSeries key s) = seriesValue key s + 1 := by
  induction s with
  | nil => simp [incSeries, seriesValue, List.lookup]
  | cons kv s ih =>
    obtain ⟨k, v⟩ := kv
    by_cases h : k = key
    · subst h
      simp [incSeries, seriesValue, List.lookup]
    · have h2 : (key == k) = false := by simpa using fun e => h e.symm
      simp only [seriesValue] at ih
      simp [incSeries, seriesValue, List.lookup, h, h2, ih]

theorem rangeBody_uptime (id : CollectorId) (n : Nat) :
    ∀ (w : World) (c : Collector), w.heap[id]? = some c → c.kind = .counterVec →
      c.labels = [] →
      ∃ w1 c1, rangeBody (incWithLabelValues (some id) []) n w = .ok w1 ∧
        w1.heap[id]? = some c1 ∧ seriesValue [] c1.series = seriesValue [] c.series + n := by
  induction n with
  | zero => intro w c h _ _; exact ⟨w, c, rfl, h, rfl⟩
  | succ n ih =>
    intro w c h hk hl
    have hlt : id < w.heap.length := by
      rcases Nat.lt_or_ge id w.heap.length with h1 | h1
      · exact h1
      · rw [List.getElem?_eq_none h1] at h; exact absurd h (by simp)
    have hstep : incWithLabelValues (some id) [] w
        = .ok { w with heap := w.heap.set id { c with series := incSeries [] c.series } } := by
      simp [incWithLabelValues, h, hk, hl]
    obtain ⟨w1, c1, hr, hc1, hv⟩ :=
      ih { w with heap := w.heap.set id { c with series := incSeries [] c.series } }
        { c with series := incSeries [] c.series }
        (by simp [List.getElem?_set_self, hlt]) hk hl
    refine ⟨w1, c1, ?_, hc1, ?_⟩
    · simp only [rangeBody, hstep]
      exact hr
    · rw [hv, seriesValue_incSeries_self]
      omega

/-- C5: whatever the number of ticks delivered, NewPrometheus has not
returned: it is still inside the loop over the tick channel, and the series
without labels of the uptime counter has been incremented once per tick. -/
theorem C5_NewPrometheus_never_returns (subsystem : String) (w : World) (ticks : Nat) :
    ∃ p w1 id c, NewPrometheus subsystem w ticks = .ok (p, w1, Flow.blocked) ∧
      p.uptime = some id ∧ w1.heap[id]? = some c ∧ seriesValue [] c.series = ticks := by
  have hreg := registerMetrics_standard subsystem
    { uptime := none, reqCnt := none, reqDur := none, reqSz := none, resSz := none,
      router := none, listenAddress := "",
      PushGateway := { PushInterval := 0, URL := "", MetricsURL := "", Job := "" },
      MetricsList := standardMetrics.foldl (fun l metric => l ++ [metric]) [],
      FormatCounterURL := some defaultFormatCounterURL } w rfl
  obtain ⟨hh, hheap⟩ := registerResult_handle subsystem
    { uptime := none, reqCnt := none, reqDur := none, reqSz := none, resSz := none,
      router := none, listenAddress := "",
      PushGateway := { PushInterval := 0, URL := "", MetricsURL := "", Job := "" },
      MetricsList := standardMetrics.foldl (fun l metric => l ++ [metric]) [],
      FormatCounterURL := some defaultFormatCounterURL } w .uptime (by decide)
  simp only [Prometheus.handle, position, Nat.add_zero] at hh hheap
  obtain ⟨w1, c1, hr, hc1, hv⟩ := rangeBody_uptime w.heap.length ticks _ _ hheap
    (by simp [freshCollector, NewMetric, MetricPtr.deref, uptime, newCollector])
    (by simp [freshCollector, NewMetric, MetricPtr.deref, uptime, newCollector])
  refine ⟨_, w1, w.heap.length, c1, ?_, hh, hc1, ?_⟩
  · simp only [NewPrometheus, hreg, timeTick, hh, hr]
    rfl
  · rw [hv]
    simp [freshCollector, NewMetric, MetricPtr.deref, uptime, newCollector, seriesValue]

/-! ## One request, one count -/

theorem seriesValue_incSeries_other (key k : List String) (hk : k ≠ key)
    (s : List (List String × Nat)) :
    seriesValue k (incSeries key s) = seriesValue k s := by
  induction s with
  | nil =>
    have h2 : (k == key) = false := by simpa using hk
    simp [incSeries, seriesValue, List.lookup, h2]
  | cons kv s ih =>
    obtain ⟨k0, v⟩ := kv
    simp only [seriesValue] at ih
    by_cases h : k0 = key
    · subst h
      have h2 : (k == k0) = false := by simpa using hk
      simp [incSeries, seriesValue, List.lookup, h2]
    · by_cases h3 : k = k0
      · subst h3
        simp [incSeries, seriesValue, List.lookup, h]
      · have h4 : (k == k0) = false := by simpa using h3
        simp [incSeries, seriesValue, List.lookup, h, h4, ih]

theorem seriesTotal_incSeries (key : List String) (s : List (List String × Nat)) :
    seriesTotal (incSeries key s) = seriesTotal s + 1 := by
  induction s with
  | nil => simp [incSeries, seriesTotal]
  | cons kv s ih =>
    obtain ⟨k0, v⟩ := kv
    simp only [seriesTotal] at ih
    by_cases h : k0 = key
    · simp [incSeries, seriesTotal, h]; omega
    · simp [incSeries, seriesTotal, h, ih]; omega

theorem observe_ok (w : World) (h : Option CollectorId) (id : CollectorId) (c : Collector)
    (v : Int) (hs : summaryAt w.heap h id c) :
    observe h v w
      = .ok { w with heap := w.heap.set id { c with observations := c.observations ++ [v] } } := by
  obtain ⟨h1, h2, h3⟩ := hs
  simp [observe, h1, h2, h3]

theorem incWithLabelValues_ok (w : World) (h : Option CollectorId) (id : CollectorId)
    (c : Collector) (lvs : List String) (hl : lvs.length = 4) (hc : counterVecAt w.heap h id c) :
    incWithLabelValues h lvs w
      = .ok { w with heap := w.heap.set id { c with series := incSeries lvs c.series } } := by
  obtain ⟨h1, h2, h3, h4⟩ := hc
  simp [incWithLabelValues, h1, h2, h3, h4, hl]

theorem lt_length_of_getElem? (l : List Collector) (i : Nat) (c : Collector)
    (h : l[i]? = some c) : i < l.length := by
  rcases Nat.lt_or_ge i l.length with h1 | h1
  · exact h1
  · rw [List.getElem?_eq_none h1] at h; exact absurd h (by simp)

/-- C2: for a request whose URL string differs from the scrape path, with
the four handles populated and distinct and a downstream chain that returns,
one run of the middleware increments exactly the series of the request-count
vector keyed by (status after the chain ran, method, host, FormatCounterURL
result) by one, so the vector total goes up by one and every other series is
unchanged; each of the duration, request-size and response-size summaries
receives exactly one observation; no other collector changes. -/
theorem C2_one_request_counted_once (p : Prometheus) (metricsPath : String) (next : Downstream)
    (s s1 : State) (u : Url) (format : Context → Except String String) (url : String)
    (idC idD idQ idS : CollectorId) (cC cD cQ cS : Collector)
    (hu : s.ctx.Request.URL = some u) (hpath : u.string ≠ metricsPath)
    (hnext : next s = .ok s1)
    (hformat : p.FormatCounterURL = some format) (hurl : format s1.ctx = .ok url)
    (hC : counterVecAt s1.world.heap p.reqCnt idC cC)
    (hD : summaryAt s1.world.heap p.reqDur idD cD)
    (hQ : summaryAt s1.world.heap p.reqSz idQ cQ)
    (hS : summaryAt s1.world.heap p.resSz idS cS)
    (hCD : idC ≠ idD) (hCQ : idC ≠ idQ) (hCS : idC ≠ idS)
    (hDQ : idD ≠ idQ) (hDS : idD ≠ idS) (hQS : idQ ≠ idS) :
    ∃ s2 cC2 cD2 cQ2 cS2, handlerFunc p metricsPath next s = .ok s2 ∧
      s2.world.heap[idC]? = some cC2 ∧
      seriesValue [Itoa s1.ctx.status, s1.ctx.Request.Method, s1.ctx.Request.Host, url]
          cC2.series
        = seriesValue [Itoa s1.ctx.status, s1.ctx.Request.Method, s1.ctx.Request.Host, url]
            cC.series + 1 ∧
      (∀ k, k ≠ [Itoa s1.ctx.status, s1.ctx.Request.Method, s1.ctx.Request.Host, url] →
        seriesValue k cC2.series = seriesValue k cC.series) ∧
      seriesTotal cC2.series = seriesTotal cC.series + 1 ∧
      cC2.observations = cC.observations ∧
      s2.world.heap[idD]? = some cD2 ∧
      cD2.observations = cD.observations ++ [s1.now - s.now] ∧ cD2.series = cD.series ∧
      s2.world.heap[idQ]? = some cQ2 ∧
      cQ2.observations = cQ.observations ++ [computeApproximateRequestSize s.ctx.Request] ∧
      cQ2.series = cQ.series ∧
      s2.world.heap[idS]? = some cS2 ∧
      cS2.observations = cS.observations ++ [s1.ctx.size] ∧ cS2.series = cS.series ∧
      (∀ j, j ≠ idC → j ≠ idD → j ≠ idQ → j ≠ idS → s2.world.heap[j]? = s1.world.heap[j]?) ∧
      s2.world.heap.length = s1.world.heap.length ∧
      s2.world.registry = s1.world.registry ∧ s2.world.log = s1.world.log ∧
      s2.ctx = s1.ctx ∧ s2.nextCalls = s.nextCalls + 1 := by
  have lC := lt_length_of_getElem? _ _ _ hC.2.1
  have lD := lt_length_of_getElem? _ _ _ hD.2.1
  have lQ := lt_length_of_getElem? _ _ _ hQ.2.1
  have lS := lt_length_of_getElem? _ _ _ hS.2.1
  have e1 : cNext next s = .ok { s1 with nextCalls := s.nextCalls + 1 } := by
    simp [cNext, hnext]
  obtain ⟨key, hkey⟩ : ∃ key : List String,
      key = [Itoa s1.ctx.status, s1.ctx.Request.Method, s1.ctx.Request.Host, url] := ⟨_, rfl⟩
  have hklen : key.length = 4 := by rw [hkey]; rfl
  obtain ⟨dD, hdD⟩ : ∃ c : Collector,
      c = { cD with observations := cD.observations ++ [s1.now - s.now] } := ⟨_, rfl⟩
  obtain ⟨dC, hdC⟩ : ∃ c : Collector,
      c = { cC with series := incSeries key cC.series } := ⟨_, rfl⟩
  obtain ⟨dQ, hdQ⟩ : ∃ c : Collector,
      c = { cQ with observations := cQ.observations ++
        [computeApproximateRequestSize s.ctx.Request] } := ⟨_, rfl⟩
  obtain ⟨dS, hdS⟩ : ∃ c : Collector,
      c = { cS with observations := cS.observations ++ [s1.ctx.size] } := ⟨_, rfl⟩
  have o1 : observe p.reqDur (s1.now - s.now) s1.world
      = .ok { s1.world with heap := s1.world.heap.set idD dD } := by
    rw [hdD]; exact observe_ok s1.world p.reqDur idD cD (s1.now - s.now) hD
  have hC1 : counterVecAt (s1.world.heap.set idD dD) p.reqCnt idC cC := by
    refine ⟨hC.1, ?_, hC.2.2⟩
    simp only [List.getElem?_set, if_neg (Ne.symm hCD)]
    exact hC.2.1
  have o2 : incWithLabelValues p.reqCnt key { s1.world with heap := s1.world.heap.set idD dD }
      = .ok { s1.world with heap := (s1.world.heap.set idD dD).set idC dC } := by
    rw [hdC]
    exact incWithLabelValues_ok { s1.world with heap := s1.world.heap.set idD dD }
      p.reqCnt idC cC key hklen hC1
  have hQ2 : summaryAt ((s1.world.heap.set idD dD).set idC dC) p.reqSz idQ cQ := by
    refine ⟨hQ.1, ?_, hQ.2.2⟩
    simp only [List.getElem?_set, if_neg hCQ, if_neg hDQ]
    exact hQ.2.1
  have o3 : observe p.reqSz (computeApproximateRequestSize s.ctx.Request)
        { s1.world with heap := (s1.world.heap.set idD dD).set idC dC }
      = .ok { s1.world with heap := ((s1.world.heap.set idD dD).set idC dC).set idQ dQ } := by
    rw [hdQ]
    exact observe_ok { s1.world with heap := (s1.world.heap.set idD dD).set idC dC }
      p.reqSz idQ cQ _ hQ2
  have hS3 : summaryAt (((s1.world.heap.set idD dD).set idC dC).set idQ dQ) p.resSz idS cS := by
    refine ⟨hS.1, ?_, hS.2.2⟩
    simp only [List.getElem?_set, if_neg hCS, if_neg hDS, if_neg hQS]
    exact hS.2.1
  have o4 : observe p.resSz s1.ctx.size
        { s1.world with heap := ((s1.world.heap.set idD dD).set idC dC).set idQ dQ }
      = .ok { s1.world with
          heap := (((s1.world.heap.set idD dD).set idC dC).set idQ dQ).set idS dS } := by
    rw [hdS]
    exact observe_ok { s1.world with heap := ((s1.world.heap.set idD dD).set idC dC).set idQ dQ }
      p.resSz idS cS _ hS3
  have hrun : handlerFunc p metricsPath next s
      = .ok { s1 with
          nextCalls := s.nextCalls + 1
          world := { s1.world with
            heap := (((s1.world.heap.set idD dD).set idC dC).set idQ dQ).set idS dS } } := by
    unfold handlerFunc
    simp only [hu, if_neg hpath, e1, o1, hformat, hurl, ← hkey, o2, o3, o4]
  rw [← hkey]
  refine ⟨_, dC, dD, dQ, dS, hrun, ?_, ?_, ?_, ?_, ?_, ?_, ?_, ?_, ?_, ?_, ?_, ?_, ?_, ?_, ?_,
    ?_, rfl, rfl, rfl, rfl⟩
  · simp [List.getElem?_set, hCS, hCQ, Ne.symm hCS, Ne.symm hCQ, lC]
  · rw [hdC]; exact seriesValue_incSeries_self _ _
  · intro k hk; rw [hdC]; exact seriesValue_incSeries_other _ k hk _
  · rw [hdC]; exact seriesTotal_incSeries _ _
  · rw [hdC]
  · simp [List.getElem?_set, hCD, hDS, hDQ, Ne.symm hCD, Ne.symm hDS, Ne.symm hDQ, lD]
  · rw [hdD]
  · rw [hdD]
  · simp [List.getElem?_set, hQS, Ne.symm hQS, lQ]
  · rw [hdQ]
  · rw [hdQ]
  · simp [List.getElem?_set, lS]
  · rw [hdS]
  · rw [hdS]
  · intro j h1 h2 h3 h4
    simp [List.getElem?_set, Ne.symm h1, Ne.symm h2, Ne.symm h3, Ne.symm h4]
  · simp

/-- C2 witness: the example GET for /users/42 against the handles
registerMetrics has populated; the series (200, GET, h, /users/42) and the
vector total both become 1. -/
theorem C2_one_request_counted_once_witness :
    ∃ s2 c, handlerFunc registered.1 "/metrics" exampleNext
        (exampleState registered.2 "/users/42") = .ok s2 ∧
      s2.world.heap[1]? = some c ∧
      seriesValue ["200", "GET", "h", "/users/42"] c.series = 1 ∧
      seriesTotal c.series = 1 := by
  obtain ⟨s2, c, _, _, _, h, hc, hv, _, ht, _⟩ :=
    C2_one_request_counted_once registered.1 "/metrics" exampleNext
      (exampleState registered.2 "/users/42")
      { exampleState registered.2 "/users/42" with
        ctx := { (exampleState registered.2 "/users/42").ctx with status := 200, size := 12 }
        now := 1005 }
      { string := "/users/42", escapedPath := "/users/42" }
      defaultFormatCounterURL "/users/42" 1 2 4 3
      (freshCollector "gin" .reqCnt) (freshCollector "gin" .reqDur)
      (freshCollector "gin" .reqSz) (freshCollector "gin" .resSz)
      rfl (by decide) rfl rfl rfl
      ⟨rfl, rfl, rfl, rfl⟩ ⟨rfl, rfl, Or.inl rfl⟩ ⟨rfl, rfl, Or.inl rfl⟩ ⟨rfl, rfl, Or.inl rfl⟩
      (by decide) (by decide) (by decide) (by decide) (by decide) (by decide)
  exact ⟨s2, c, h, hc, hv, ht⟩

/-- The handles registerMetrics leaves behind are populated and distinct, as
the request interceptor needs them. -/
theorem registerMetrics_populates (subsystem : String) (p : Prometheus) (w : World)
    (hl : p.MetricsList = standardMetrics) :
    ∃ p1 w1, registerMetrics subsystem p w = .ok (p1, w1) ∧
      counterVecAt w1.heap p1.reqCnt (w.heap.length + 1) (freshCollector subsystem .reqCnt) ∧
      summaryAt w1.heap p1.reqDur (w.heap.length + 2) (freshCollector subsystem .reqDur) ∧
      summaryAt w1.heap p1.reqSz (w.heap.length + 4) (freshCollector subsystem .reqSz) ∧
      summaryAt w1.heap p1.resSz (w.heap.length + 3) (freshCollector subsystem .resSz) := by
  have h1 := registerResult_handle subsystem p w .reqCnt (by decide)
  have h2 := registerResult_handle subsystem p w .reqDur (by decide)
  have h3 := registerResult_handle subsystem p w .resSz (by decide)
  have h4 := registerResult_handle subsystem p w .reqSz (by decide)
  simp only [Prometheus.handle, position] at h1 h2 h3 h4
  exact ⟨_, _, registerMetrics_standard subsystem p w hl,
    ⟨h1.1, h1.2, by simp [freshCollector, NewMetric, MetricPtr.deref, reqCnt, newCollector],
      by simp [freshCollector, NewMetric, MetricPtr.deref, reqCnt, newCollector]⟩,
    ⟨h2.1, h2.2, by simp [freshCollector, NewMetric, MetricPtr.deref, reqDur, newCollector]⟩,
    ⟨h4.1, h4.2, by simp [freshCollector, NewMetric, MetricPtr.deref, reqSz, newCollector]⟩,
    ⟨h3.1, h3.2, by simp [freshCollector, NewMetric, MetricPtr.deref, resSz, newCollector]⟩⟩

end GinPrometheus
